import Mathlib

/-!
Verification development for the `simljp` molecular-dynamics program
(`src/main.cpp`).  The program state is three 3×N real matrices (positions,
velocities, accelerations), each column one particle.  We embed a matrix as a
`List Vec3` of its columns, floating-point doubles as real numbers (exact
arithmetic), and each C++ function as a Lean function of the same name.
-/

namespace Simljp

/-- A column of one of the 3×N matrices: one particle's x/y/z components. -/
@[ext]
structure Vec3 where
  x : ℝ
  y : ℝ
  z : ℝ

noncomputable section

/-- `#define SIGMA 1.0e-1` (src/main.cpp:34). -/
def SIGMA : ℝ := 1 / 10

/-- `#define EPSILON 1.0` (src/main.cpp:35). -/
def EPSILON : ℝ := 1

/-- Componentwise sum of two columns. -/
def vadd (a b : Vec3) : Vec3 := ⟨a.x + b.x, a.y + b.y, a.z + b.z⟩

/-- Componentwise difference of two columns. -/
def vsub (a b : Vec3) : Vec3 := ⟨a.x - b.x, a.y - b.y, a.z - b.z⟩

/-- Scaling a column by a real coefficient. -/
def vscale (c : ℝ) (v : Vec3) : Vec3 := ⟨c * v.x, c * v.y, c * v.z⟩

/-- The zero column. -/
def vzero : Vec3 := ⟨0, 0, 0⟩

/-- Row-wise sum over a list of columns (`mpo.rowwise().sum()`). -/
def vsum (l : List Vec3) : Vec3 := l.foldr vadd vzero

/-- Euclidean norm of a column (`rp.colwise().norm()` for one column). -/
def vnorm (v : Vec3) : ℝ := Real.sqrt (v.x ^ 2 + v.y ^ 2 + v.z ^ 2)

/-- One column of the output of `calc_lenjon_force` (src/main.cpp:176-189):
the contribution of the surrounding particle at `q` to the force on the main
particle at `vp`.  Mirrors the source: `rp = mp - vp` (one column), `rpn0 =`
inverse norm, `rpn1 = 24*EPSILON*(2*(rpn0*SIGMA)^7 - (rpn0*SIGMA)^13)`, and
the output column is `rp * (rpn1 * rpn0)`. -/
def lj_contrib (vp q : Vec3) : Vec3 :=
  let rp := vsub q vp
  let rpn0 := (vnorm rp)⁻¹
  let rpn1 := 24 * EPSILON * (2 * (rpn0 * SIGMA) ^ 7 - (rpn0 * SIGMA) ^ 13)
  vscale (rpn1 * rpn0) rp

/-- `calc_lenjon_force` (src/main.cpp:176-189): the matrix `mpo` of force
contributions of every surrounding particle in `mp` on the particle `vp`. -/
def calc_lenjon_force (vp : Vec3) (mp : List Vec3) : List Vec3 :=
  mp.map (lj_contrib vp)

/-- `calc_accel` (src/main.cpp:195-208): column `pi` of the acceleration
matrix is the row-wise sum of `calc_lenjon_force` of particle `pi` against
the block of particles of index `pi+1 .. co-1`
(`mp.block(0, pi+1, 3, co-pi-1)`). -/
def calc_accel (mp : List Vec3) : List Vec3 :=
  (List.range mp.length).map fun pi =>
    vsum (calc_lenjon_force (mp.getD pi vzero) (mp.drop (pi + 1)))

/-- Per-particle body of the loop in `border_handling` (src/main.cpp:84-93):
each of the three velocity components is negated exactly when the matching
position component is `> upper` or `< lower` for that axis's two bound
arguments (`right`/`left`, `top`/`bottom`, `back`/`front`). -/
def border_flip (left right top bottom front back : ℝ) (p v : Vec3) : Vec3 :=
  ⟨if p.x > right ∨ p.x < left then -v.x else v.x,
   if p.y > top ∨ p.y < bottom then -v.y else v.y,
   if p.z > back ∨ p.z < front then -v.z else v.z⟩

/-- `border_handling` (src/main.cpp:75-95).  The positions are read but never
written; in closed mode every particle's velocity column goes through
`border_flip`; in the non-closed mode the body does nothing.  Returns the
final (position, velocity) pair. -/
def border_handling (mp mv : List Vec3) (closed : Bool)
    (left right top bottom front back : ℝ) : List Vec3 × List Vec3 :=
  if closed then
    (mp, (mp.zip mv).map fun pv =>
      border_flip left right top bottom front back pv.1 pv.2)
  else
    (mp, mv)

/-- Componentwise sum of two matrices (`+` on equally sized `MatrixXd`). -/
def madd (A B : List Vec3) : List Vec3 := List.zipWith vadd A B

/-- Scalar multiple of a matrix. -/
def mscale (c : ℝ) (A : List Vec3) : List Vec3 := A.map (vscale c)

/-- The mutable state of `simulate` (src/main.cpp:276-308): the position,
velocity and acceleration matrices. -/
structure SimState where
  mp : List Vec3
  mv : List Vec3
  ma : List Vec3

/-- One iteration of the main timestep loop of `simulate`
(src/main.cpp:292-307):
`mp = mp + mv*td + 0.5*ma*pow(td,2)`, `mal = ma`, `calc_accel(mp, ma)`,
`ma += mal`, `mv += 0.5*ma*td`, then
`border_handling(mp, mv, true, 0, po, 0, po, 0, po)` with the arguments in
exactly the source call's positional order
(left = 0, right = po, top = 0, bottom = po, front = 0, back = po). -/
def simStep (td po : ℝ) (s : SimState) : SimState :=
  let mp := madd (madd s.mp (mscale td s.mv)) (mscale (0.5 * td ^ 2) s.ma)
  let mal := s.ma
  let ma := madd (calc_accel mp) mal
  let mv := madd s.mv (mscale (0.5 * td) ma)
  let b := border_handling mp mv true 0 po 0 po 0 po
  ⟨b.1, b.2, ma⟩

/-- `simulate` (src/main.cpp:276-308) without serialization: seed the
acceleration matrix with one `calc_accel` on the initial positions, then run
`tts` iterations of the timestep loop; `po` is the box side
`cbrt(mp.cols())`. -/
def simulate (mp mv : List Vec3) (td : ℝ) (tts : ℕ) : SimState :=
  let po : ℝ := (mp.length : ℝ) ^ ((1 : ℝ) / 3)
  (simStep td po)^[tts] ⟨mp, mv, calc_accel mp⟩

/-- The pairwise force law as the spec words it, for comparison with
`lj_contrib`: magnitude `24ε(2(σ/r)^13 − (σ/r)^7)` directed along the unit
separation vector, oriented as the negative gradient of
`U(r) = 4ε[(σ/r)^12 − (σ/r)^6]`, which on the particle at `vp` points from
the partner `q` toward `vp` whenever the magnitude is positive. -/
def lj_force_spec (vp q : Vec3) : Vec3 :=
  let r := vnorm (vsub q vp)
  vscale (24 * EPSILON * (2 * (SIGMA / r) ^ 13 - (SIGMA / r) ^ 7) * r⁻¹)
    (vsub vp q)

end

/-- Floor of the real cube root of a natural number: the value of
`(int)cbrt(co)` for a nonnegative integer particle count `co`. -/
def icbrt (n : ℕ) : ℕ :=
  ((List.range (n + 1)).filter fun s => s * s * s ≤ n).length - 1

/-- The check `fmod(cbrt(co), 1) != 0` of `init_grid` (src/main.cpp:145-147)
and `simulate` (src/main.cpp:284-286): `true` exactly when the particle count
is not a perfect cube.  On `true` the source prints
`"Error: Wrong size of particles."` to standard output and falls through to
the code below the check. -/
def grid_size_error (n : ℕ) : Bool := icbrt n * icbrt n * icbrt n != n

/-- The loop of `init_grid` (src/main.cpp:150-167), counting down the
remaining columns and carrying the counters `px`, `py`, `pz`: emit the
current counters, then `px++`; if `px % s == 0` reset `px` and `py++`; if
`py != 0 && py % s == 0` reset `py` and `pz++`. -/
def grid_loop (s : ℕ) : ℕ → ℕ → ℕ → ℕ → List (ℕ × ℕ × ℕ)
  | 0, _, _, _ => []
  | co + 1, px, py, pz =>
    (px, py, pz) ::
      (let px1 := px + 1
       let px2 := if px1 % s == 0 then 0 else px1
       let py1 := if px1 % s == 0 then py + 1 else py
       let py2 := if py1 != 0 && py1 % s == 0 then 0 else py1
       let pz1 := if py1 != 0 && py1 % s == 0 then pz + 1 else pz
       grid_loop s co px2 py2 pz1)

/-- `init_grid` (src/main.cpp:134-168): the list of integer lattice
positions assigned to the `n` columns of the position matrix, with
`s = (int)cbrt(n)` as the per-axis side. -/
def init_grid (n : ℕ) : List (ℕ × ℕ × ℕ) := grid_loop (icbrt n) n 0 0 0

/-! ## Helper lemmas -/

theorem vnorm_xaxis (a : ℝ) (h : 0 ≤ a) : vnorm ⟨a, 0, 0⟩ = a := by
  rw [vnorm, show a ^ 2 + (0 : ℝ) ^ 2 + (0 : ℝ) ^ 2 = a ^ 2 by ring,
    Real.sqrt_sq h]

/-- At separation `r = SIGMA` along the x axis the code's pairwise
contribution on the particle at the origin is `(24, 0, 0)`: magnitude `24`,
pointing toward the partner. -/
theorem lj_contrib_sigma :
    lj_contrib ⟨0, 0, 0⟩ ⟨1 / 10, 0, 0⟩ = (⟨24, 0, 0⟩ : Vec3) := by
  have h : vsub ⟨1 / 10, 0, 0⟩ ⟨0, 0, 0⟩ = (⟨1 / 10, 0, 0⟩ : Vec3) := by
    simp [vsub]
  rw [lj_contrib, h, vnorm_xaxis (1 / 10) (by norm_num), SIGMA, EPSILON, vscale]
  norm_num

/-- At the same input the spec's force law gives `(-24, 0, 0)`: magnitude
`24`, pointing away from the partner. -/
theorem lj_force_spec_sigma :
    lj_force_spec ⟨0, 0, 0⟩ ⟨1 / 10, 0, 0⟩ = (⟨-24, 0, 0⟩ : Vec3) := by
  have h : vsub ⟨1 / 10, 0, 0⟩ ⟨0, 0, 0⟩ = (⟨1 / 10, 0, 0⟩ : Vec3) := by
    simp [vsub]
  rw [lj_force_spec, h, vnorm_xaxis (1 / 10) (by norm_num), SIGMA, EPSILON,
    vsub, vscale]
  norm_num

/-- The full acceleration matrix for the two-particle configuration at
separation `SIGMA`: particle 0 receives `(24, 0, 0)` and particle 1 receives
nothing at all. -/
theorem calc_accel_pair :
    calc_accel [⟨0, 0, 0⟩, ⟨1 / 10, 0, 0⟩] = [⟨24, 0, 0⟩, vzero] := by
  simp only [calc_accel, calc_lenjon_force, List.length_cons, List.length_nil,
    List.range_succ, List.range_zero, List.map_cons, List.map_nil,
    List.nil_append, List.cons_append, List.getD_cons_zero,
    List.getD_cons_succ, List.drop_succ_cons, List.drop_zero, List.drop_nil,
    vsum, List.foldr_cons, List.foldr_nil, lj_contrib_sigma]
  have h : vadd (⟨24, 0, 0⟩ : Vec3) vzero = (⟨24, 0, 0⟩ : Vec3) := by
    ext <;> simp [vadd, vzero]
  rw [h]

theorem calc_accel_length (mp : List Vec3) :
    (calc_accel mp).length = mp.length := by
  simp [calc_accel]

theorem length_two_eq (l : List Vec3) (h : l.length = 2) :
    ∃ a b, l = [a, b] := by
  match l, h with
  | [a, b], _ => exact ⟨a, b, rfl⟩

/-- Shifting both endpoints by the same vector leaves the pairwise
contribution unchanged. -/
theorem lj_contrib_shift (v q t : Vec3) :
    lj_contrib (vadd v t) (vadd q t) = lj_contrib v q := by
  have h : vsub (vadd q t) (vadd v t) = vsub q v := by
    ext <;> simp [vsub, vadd]
  rw [lj_contrib, lj_contrib, h]

/-- The position matrix after one timestep is the Verlet position update of
the incoming state; the closed-mode `border_handling` call writes only
velocities. -/
theorem simStep_mp (td po : ℝ) (s : SimState) :
    (simStep td po s).mp =
      madd (madd s.mp (mscale td s.mv)) (mscale (0.5 * td ^ 2) s.ma) := rfl

/-- The acceleration matrix stored after one timestep is
`calc_accel` of the updated positions PLUS the incoming acceleration matrix
(the `ma += mal` of src/main.cpp:297). -/
theorem simStep_ma (td po : ℝ) (s : SimState) :
    (simStep td po s).ma =
      madd (calc_accel
        (madd (madd s.mp (mscale td s.mv)) (mscale (0.5 * td ^ 2) s.ma)))
      s.ma := rfl

/-! ## Claims -/

/-- C1: the pairwise force the code computes is NOT the spec's
`24ε(2(σ/r)^13 − (σ/r)^7)` along the unit separation vector (the negative
gradient of the 12-6 potential).  At separation `r = σ` the code returns
`(24, 0, 0)` — pointing toward the partner — while the spec's law gives
`(-24, 0, 0)` — pointing away.  The code's coefficient is
`24ε(2(σ/r)^7 − (σ/r)^13)`: the factor 2 and the exponents are attached to
the wrong terms. -/
theorem C1_force_law_mismatch :
    lj_contrib ⟨0, 0, 0⟩ ⟨1 / 10, 0, 0⟩ = (⟨24, 0, 0⟩ : Vec3) ∧
    lj_force_spec ⟨0, 0, 0⟩ ⟨1 / 10, 0, 0⟩ = (⟨-24, 0, 0⟩ : Vec3) ∧
    lj_contrib ⟨0, 0, 0⟩ ⟨1 / 10, 0, 0⟩ ≠
      lj_force_spec ⟨0, 0, 0⟩ ⟨1 / 10, 0, 0⟩ := by
  refine ⟨lj_contrib_sigma, lj_force_spec_sigma, ?_⟩
  rw [lj_contrib_sigma, lj_force_spec_sigma]
  intro h
  have := congrArg Vec3.x h
  norm_num at this

/-- C2: at separation `SIGMA`, which is strictly below the claimed
equilibrium `r_eq = σ·2^(1/6)`, the code's force on the particle at the
origin has positive x component, i.e. it points toward the partner sitting
at `(SIGMA, 0, 0)` — attractive, not repulsive as the claim requires for
every `r < r_eq`. -/
theorem C2_attractive_below_equilibrium :
    SIGMA < SIGMA * (2 : ℝ) ^ ((1 : ℝ) / 6) ∧
    vnorm (vsub (⟨SIGMA, 0, 0⟩ : Vec3) ⟨0, 0, 0⟩) = SIGMA ∧
    0 < (lj_contrib ⟨0, 0, 0⟩ ⟨SIGMA, 0, 0⟩).x := by
  have h1 : (1 : ℝ) < (2 : ℝ) ^ ((1 : ℝ) / 6) :=
    (Real.one_lt_rpow_iff_of_pos (by norm_num)).mpr
      (Or.inl ⟨by norm_num, by norm_num⟩)
  refine ⟨?_, ?_, ?_⟩
  · rw [SIGMA]; nlinarith
  · have h : vsub (⟨SIGMA, 0, 0⟩ : Vec3) ⟨0, 0, 0⟩ = (⟨SIGMA, 0, 0⟩ : Vec3) := by
      simp [vsub]
    rw [h, SIGMA, vnorm_xaxis (1 / 10) (by norm_num)]
  · rw [show (⟨SIGMA, 0, 0⟩ : Vec3) = (⟨1 / 10, 0, 0⟩ : Vec3) by rw [SIGMA],
      lj_contrib_sigma]
    norm_num

/-- C3: Newton's third law accumulation is absent.  For the two-particle
configuration at separation `SIGMA` the acceleration array is
`[(24,0,0), (0,0,0)]`: particle 0 receives the pairwise contribution of its
higher-indexed partner, but the opposite-signed reaction `-(24,0,0)` never
appears in particle 1's column, which stays zero. -/
theorem C3_missing_reaction :
    calc_accel [⟨0, 0, 0⟩, ⟨1 / 10, 0, 0⟩] = [⟨24, 0, 0⟩, vzero] ∧
    vzero ≠ vscale (-1) ⟨24, 0, 0⟩ := by
  refine ⟨calc_accel_pair, ?_⟩
  intro h
  have := congrArg Vec3.x h
  simp [vzero, vscale] at this

/-- C6: for `N = 2` (cube root not an integer) the size check of
`init_grid` fires, yet the function still assigns lattice positions to both
particles and control continues into the simulation — the code warns and
proceeds instead of aborting. -/
theorem C6_warns_and_continues :
    grid_size_error 2 = true ∧ init_grid 2 = [(0, 0, 0), (0, 0, 1)] := by
  decide

/-- C7: selecting the open (non-closed) boundary mode silently does
nothing: the handler returns the positions and velocities unchanged even for
a particle far outside the box, and the code has no error path at all. -/
theorem C7_open_mode_silent_noop :
    border_handling [⟨5, 1, 1⟩] [⟨2, 3, 4⟩] false 0 2 0 2 0 2 =
      ([⟨5, 1, 1⟩], [⟨2, 3, 4⟩]) := by
  simp [border_handling]

/-- C8: for `N = 8` the lattice initializer produces exactly the 8 integer
points of the unit cube, x coordinate fastest, then y, then z, each point
exactly once. -/
theorem C8_lattice_unit_cube :
    init_grid 8 = [(0, 0, 0), (1, 0, 0), (0, 1, 0), (1, 1, 0),
      (0, 0, 1), (1, 0, 1), (0, 1, 1), (1, 1, 1)] ∧
    (init_grid 8).Nodup := by
  decide

/-- C4: the acceleration sum IS carried over as the starting acceleration of
the next step.  Starting from the state `simulate` seeds (two particles at
separation `SIGMA`, zero velocities, `ma = calc_accel` of the positions),
after one timestep the stored acceleration matrix — the `a_old` the next
step's position update will use — differs from `calc_accel` of the updated
positions (`a_new`): it is `a_new` plus the whole previous acceleration
matrix. -/
theorem C4_sum_carried_to_next_step :
    (simStep (1 / 100) 2 ⟨[⟨0, 0, 0⟩, ⟨1 / 10, 0, 0⟩], [vzero, vzero],
        calc_accel [⟨0, 0, 0⟩, ⟨1 / 10, 0, 0⟩]⟩).ma ≠
      calc_accel ((simStep (1 / 100) 2 ⟨[⟨0, 0, 0⟩, ⟨1 / 10, 0, 0⟩],
        [vzero, vzero], calc_accel [⟨0, 0, 0⟩, ⟨1 / 10, 0, 0⟩]⟩).mp) := by
  intro hEq
  rw [simStep_ma, simStep_mp, calc_accel_pair] at hEq
  have hlen : (calc_accel
      (madd (madd [⟨0, 0, 0⟩, ⟨1 / 10, 0, 0⟩] (mscale (1 / 100) [vzero, vzero]))
        (mscale (0.5 * (1 / 100) ^ 2) [⟨24, 0, 0⟩, vzero]))).length = 2 := by
    rw [calc_accel_length]
    simp [madd, mscale]
  obtain ⟨a0, a1, hA⟩ := length_two_eq _ hlen
  rw [hA] at hEq
  have hhead : vadd a0 ⟨24, 0, 0⟩ = a0 := by
    have h0 := congrArg (fun l => l.getD 0 vzero) hEq
    simpa [madd] using h0
  have hx := congrArg Vec3.x hhead
  simp [vadd] at hx

/-- C5: the boundary handling as invoked by the simulation
(`border_handling(mp, mv, true, 0, po, 0, po, 0, po)`, here with `po = 2`)
does not leave particles inside the cell unchanged, and does not restrict the
flip to the offending axis.  A particle at `(1/2, 1/2, 1/2)` — inside
`[0,2]³ ` on all three axes — gets its y velocity negated, because the call
passes `0` for `top` and `po` for `bottom` while the function treats `top`
as the upper bound; and a particle at `(3, 1, 1)` — outside on the x axis
only — gets both its x and its y velocity negated. -/
theorem C5_inside_particle_flipped :
    border_handling [⟨1 / 2, 1 / 2, 1 / 2⟩] [⟨1, 1, 1⟩] true 0 2 0 2 0 2 =
      ([⟨1 / 2, 1 / 2, 1 / 2⟩], [⟨1, -1, 1⟩]) ∧
    border_handling [⟨3, 1, 1⟩] [⟨1, 1, 1⟩] true 0 2 0 2 0 2 =
      ([⟨3, 1, 1⟩], [⟨-1, -1, 1⟩]) := by
  constructor <;> norm_num [border_handling, border_flip]

/-- C9: the force engine is translation invariant in exact arithmetic:
shifting every particle position by the same vector `t` leaves the whole
computed acceleration matrix unchanged. -/
theorem C9_translation_invariant (t : Vec3) (mp : List Vec3) :
    calc_accel (mp.map fun p => vadd p t) = calc_accel mp := by
  unfold calc_accel
  rw [List.length_map]
  apply List.map_congr_left
  intro pi hpi
  rw [List.mem_range] at hpi
  have hg : (mp.map fun p => vadd p t).getD pi vzero =
      vadd (mp.getD pi vzero) t := by
    rw [List.getD_eq_getElem _ _ (by simpa using hpi),
      List.getD_eq_getElem _ _ hpi, List.getElem_map]
  rw [hg, ← List.map_drop, calc_lenjon_force, calc_lenjon_force, List.map_map]
  refine congrArg vsum ?_
  apply List.map_congr_left
  intro q _
  simp only [Function.comp_apply]
  exact lj_contrib_shift _ q t

/-- C10: for any nonempty position matrix the acceleration column of the
highest-indexed particle is exactly zero: its partner block
`mp.block(0, pi+1, 3, co-pi-1)` is empty, so the row-wise sum is the zero
vector, whatever the configuration. -/
theorem C10_last_accel_zero (mp : List Vec3) (h : 1 ≤ mp.length) :
    (calc_accel mp).getD (mp.length - 1) vzero = vzero := by
  have hlt : mp.length - 1 < mp.length := by omega
  rw [calc_accel, List.getD_eq_getElem _ _ (by simpa using hlt),
    List.getElem_map, List.getElem_range]
  rw [show mp.length - 1 + 1 = mp.length by omega, List.drop_length]
  rfl

/-- C10 witness: the theorem applied to a concrete two-particle matrix. -/
theorem C10_last_accel_zero_pair :
    1 ≤ ([vzero, vzero] : List Vec3).length ∧
    (calc_accel [vzero, vzero]).getD
      (([vzero, vzero] : List Vec3).length - 1) vzero = vzero :=
  ⟨by simp, C10_last_accel_zero [vzero, vzero] (by simp)⟩

end Simljp
